import Mathlib

/-!
Verification of `download_cpap.py` (ezShare_CPAP).

The development shallowly embeds the script's pure logic:

* the STR.edf session extractor `parse_str_edf` (header date decoding,
  MaskOn/MaskOff channel lookup, per-record pairing and validity filter,
  noon-epoch date arithmetic),
* the existence prober `is_real_file` / `is_real_directory`,
* the seconds-search routines `find_seconds_for_type` and
  `find_seconds_near` together with the per-session resolver logic of
  `download_datalog`,
* the size-compare-and-skip fetch step.

Byte-level I/O (struct unpacking, HTTP transport, the local filesystem) is
abstracted: an EDF summary file is given by its decoded header strings and
per-record per-channel sample lists, the network is a function from URL to
an optional HEAD response (`none` models a network-level request failure),
and local storage is a function from path to optional byte size.
Seconds values are modelled as naturals in [0,60); the script's two-digit
string form `f"{ss:02d}"` is `twoDigit ss`, a bijection on that range.
-/

/-! ### Calendar arithmetic (models Python `datetime` / `timedelta`) -/

/-- A Gregorian calendar date, as carried by Python `datetime`. -/
structure Date where
  year : Nat
  month : Nat
  day : Nat
deriving DecidableEq, Repr

/-- A timestamp with second precision, as used for session start times. -/
structure DateTime where
  date : Date
  hour : Nat
  minute : Nat
  second : Nat
deriving DecidableEq, Repr

def isLeapYear (y : Nat) : Bool :=
  (y % 4 == 0 && y % 100 != 0) || y % 400 == 0

def daysInMonth (y m : Nat) : Nat :=
  if m = 2 then (if isLeapYear y then 29 else 28)
  else if m = 4 ∨ m = 6 ∨ m = 9 ∨ m = 11 then 30
  else 31

def nextDay (d : Date) : Date :=
  if d.day < daysInMonth d.year d.month then ⟨d.year, d.month, d.day + 1⟩
  else if d.month < 12 then ⟨d.year, d.month + 1, 1⟩
  else ⟨d.year + 1, 1, 1⟩

/-- `d + timedelta(days = n)` on the date component. -/
def addDays (d : Date) : Nat → Date
  | 0 => d
  | n + 1 => nextDay (addDays d n)

/-- Python `f"{n:02d}"` for `n < 100`. -/
def twoDigit (n : Nat) : String :=
  if n < 10 then "0" ++ toString n else toString n

/-- Python `dt.strftime("%Y%m%d")` for four-digit years. -/
def format8 (d : Date) : String :=
  toString d.year ++ twoDigit d.month ++ twoDigit d.day

/-- `noon + timedelta(minutes = m)` where `noon` is 12:00:00 of day `d`:
the session start computation of `parse_str_edf`. -/
def noonPlus (d : Date) (m : Nat) : DateTime :=
  let total := 720 + m
  ⟨addDays d (total / 1440), total % 1440 / 60, total % 1440 % 60, 0⟩

/-! ### STR.edf session extraction (`parse_str_edf`) -/

instance {ε α : Type _} [DecidableEq ε] [DecidableEq α] : DecidableEq (Except ε α) :=
  fun x y =>
    match x, y with
    | .ok a, .ok b =>
      if h : a = b then isTrue (congrArg Except.ok h)
      else isFalse fun hh => h (Except.ok.inj hh)
    | .error a, .error b =>
      if h : a = b then isTrue (congrArg Except.error h)
      else isFalse fun hh => h (Except.error.inj hh)
    | .ok _, .error _ => isFalse fun hh => Except.noConfusion hh
    | .error _, .ok _ => isFalse fun hh => Except.noConfusion hh

/-- One therapy session discovered from STR.edf, as the dict built at
lines 154-160 of `download_cpap.py`. -/
structure SessionRecord where
  record_date : String
  start_time : DateTime
  duration_min : Int
deriving DecidableEq, Repr

/-- The decoded content of an STR.edf summary file: the raw header date and
time fields (`header[168:176]`, `header[176:184]` after `strip()`), the
signal labels, and for each data record each channel's sample list (the
int16 values unpacked from the record block). -/
structure StrFile where
  dateStr : String
  timeStr : String
  labels : List String
  records : List (List (List Int))

/-- The two-digit-year pivot of line 91:
`year = 2000 + int(yy) if int(yy) < 85 else 1900 + int(yy)`. -/
def decodeTwoDigitYear (yy : Nat) : Nat :=
  if yy < 85 then 2000 + yy else 1900 + yy

/-- Split a character list at every occurrence of `sep`, keeping empty
pieces, as Python `str.split(sep)` does. -/
def splitChars (sep : Char) : List Char → List (List Char)
  | [] => [[]]
  | c :: cs =>
    match splitChars sep cs with
    | [] => [[c]]
    | g :: gs => if c = sep then [] :: g :: gs else (c :: g) :: gs

/-- Python `s.split(".")`. -/
def splitDots (s : String) : List String :=
  (splitChars '.' s.data).map fun l => ⟨l⟩

def natFromDigits (acc : Nat) : List Char → Option Nat
  | [] => some acc
  | c :: cs =>
    if '0' ≤ c ∧ c ≤ '9' then natFromDigits (acc * 10 + (c.toNat - 48)) cs
    else none

/-- Python `int(s)` on a non-negative decimal literal; `none` models the
`ValueError` raised on anything else. -/
def pyIntNat (s : String) : Option Nat :=
  match s.data with
  | [] => none
  | l => natFromDigits 0 l

/-- Lines 89-92: split `dd.mm.yy` / `hh.mi.ss`, decode the pivot year and
build the creation `datetime`; malformed fields are a fatal parse error
(Python raises `ValueError`). -/
def parseHeaderDate (dateStr timeStr : String) : Except String DateTime :=
  match splitDots dateStr, splitDots timeStr with
  | [dd, mm, yy], [hh, mi, ss] =>
    match pyIntNat dd, pyIntNat mm, pyIntNat yy, pyIntNat hh, pyIntNat mi, pyIntNat ss with
    | some dd, some mm, some yy, some hh, some mi, some ss =>
      let year := decodeTwoDigitYear yy
      if 1 ≤ mm ∧ mm ≤ 12 ∧ 1 ≤ dd ∧ dd ≤ daysInMonth year mm
          ∧ hh < 24 ∧ mi < 60 ∧ ss < 60 then
        .ok ⟨⟨year, mm, dd⟩, hh, mi, ss⟩
      else .error "invalid date"
    | _, _, _, _, _, _ => .error "invalid literal for int()"
  | _, _ => .error "header date fields malformed"

/-- The channel-lookup loop of lines 104-110, with `i` the index of the
first listed label: each matching label overwrites the variable, so the
last occurrence wins. -/
def lastIndexFrom (x : String) (i : Nat) : List String → Option Nat
  | [] => none
  | l :: rest =>
    match lastIndexFrom x (i + 1) rest with
    | some j => some j
    | none => if l = x then some i else none

/-- Index assigned by the loop of lines 104-110 to label `x`. -/
def lastIndexOfLabel (x : String) (l : List String) : Option Nat :=
  lastIndexFrom x 0 l

/-- The inner filter loop of lines 139-160 for one record day `d`:
pairs with non-positive, out-of-range (≥ 1440) markers or non-positive
duration are skipped, the rest become `SessionRecord`s. -/
def pairSessions (d : Date) : List (Int × Int) → List SessionRecord
  | [] => []
  | (onv, offv) :: rest =>
    if onv ≤ 0 ∨ offv ≤ 0 then pairSessions d rest
    else if 1440 ≤ onv ∨ 1440 ≤ offv then pairSessions d rest
    else if offv - onv ≤ 0 then pairSessions d rest
    else ⟨format8 d, noonPlus d onv.toNat, offv - onv⟩ :: pairSessions d rest

/-- The record loop of lines 122-160: record `i` has logical day
`creation + i` days; the on/off channels are read (zipped up to the
shorter sample count, matching `range(min(...))`) and filtered. -/
def sessionsFrom (onI offI : Nat) (d : Date) : List (List (List Int)) → List SessionRecord
  | [] => []
  | chans :: rest =>
    pairSessions d ((chans.getD onI []).zip (chans.getD offI []))
      ++ sessionsFrom onI offI (nextDay d) rest

/-- `parse_str_edf` (lines 69-162) over the decoded file content.
`.error` models the raised `ValueError`s. -/
def parse_str_edf (f : StrFile) : Except String (List SessionRecord) :=
  match parseHeaderDate f.dateStr f.timeStr with
  | .error e => .error e
  | .ok startDt =>
    match lastIndexOfLabel "MaskOn" f.labels, lastIndexOfLabel "MaskOff" f.labels with
    | some onI, some offI => .ok (sessionsFrom onI offI startDt.date f.records)
    | _, _ => .error "Could not find MaskOn/MaskOff signals in STR.edf"

/-- The validity predicate in the spec's words: both markers strictly
positive, both below 1440, positive duration. -/
def specValidPair (onv offv : Int) : Bool :=
  decide (0 < onv) && decide (0 < offv) && decide (onv < 1440) &&
    decide (offv < 1440) && decide (0 < offv - onv)

/-- All on/off sample pairs of a file, record by record. -/
def markerPairs (onI offI : Nat) : List (List (List Int)) → List (Int × Int)
  | [] => []
  | chans :: rest =>
    (chans.getD onI []).zip (chans.getD offI []) ++ markerPairs onI offI rest

/-! ### Existence probing (`EzShareCard.is_real_file` / `is_real_directory`)

The network is modelled as a function from URL to `Option HeadResponse`:
`none` is a `requests.RequestException` (timeout, connection refused),
`some r` a completed HEAD response with its `Content-Type` header and the
numeric value of its `Content-Length` header (0 when absent). -/

/-- A completed HTTP HEAD response, as far as `is_real_file` inspects it. -/
structure HeadResponse where
  contentType : String
  contentLength : Nat
deriving DecidableEq, Repr

def charsStartWith : List Char → List Char → Bool
  | [], _ => true
  | _ :: _, [] => false
  | a :: as, b :: bs => a == b && charsStartWith as bs

def charsContain (needle : List Char) : List Char → Bool
  | [] => charsStartWith needle []
  | b :: bs => charsStartWith needle (b :: bs) || charsContain needle bs

/-- Python substring containment `needle in hay`. -/
def strContains (needle hay : String) : Bool :=
  charsContain needle.data hay.data

/-- Python `s.lstrip("/")`. -/
def lstripSlash (s : String) : String :=
  ⟨s.data.dropWhile fun c => c = '/'⟩

/-- Python `s.rstrip("/")`. -/
def rstripSlash (s : String) : String :=
  ⟨(s.data.reverse.dropWhile fun c => c = '/').reverse⟩

/-- The URL built at line 220: `f"{self.base_url}/{path.lstrip('/')}"`. -/
def urlOf (base path : String) : String :=
  base ++ "/" ++ lstripSlash path

/-- `EzShareCard.is_real_file` (lines 210-229): a `text/html` content type
marks the card's synthesized not-found page, any network-level failure is
also treated as non-existence with size 0; otherwise the file is real and
its size is the `Content-Length` value. -/
def is_real_file (net : String → Option HeadResponse) (base path : String) : Bool × Nat :=
  match net (urlOf base path) with
  | none => (false, 0)
  | some r =>
    if strContains "text/html" r.contentType then (false, 0)
    else (true, r.contentLength)

/-- `EzShareCard.is_real_directory` (lines 231-233): probe the path with
trailing slashes removed; a directory is an existing entry of size 0. -/
def is_real_directory (net : String → Option HeadResponse) (base path : String) : Bool :=
  let r := is_real_file net base (rstripSlash path)
  r.1 && r.2 == 0

/-! ### DATALOG seconds probing (`find_seconds_for_type`, `find_seconds_near`)

The probers below take the probe function `String → Bool × Nat`
(`card.is_real_file` in the script) as a parameter.  They return the found
seconds value as a `Nat` in `[0,60)`; the script returns its two-digit
rendering `twoDigit ss` (and `int` of it when used as a reference), which
is a bijection on that range.  The first component of each loop's result
records the seconds values actually probed, in probe order. -/

/-- The candidate path of lines 273 and 292:
`f"DATALOG/{dir_date}/{file_date}_{hhmm}{ss:02d}_{ftype}.edf"`. -/
def datalogPath (dir_date file_date hhmm : String) (ss : Nat) (ftype : String) : String :=
  "DATALOG/" ++ dir_date ++ "/" ++ file_date ++ "_" ++ hhmm ++ twoDigit ss
    ++ "_" ++ ftype ++ ".edf"

/-- The loop body shared by both searches: probe `ss`, accept on
`exists and size > 0`. -/
def hitAt (probe : String → Bool × Nat) (dir_date file_date hhmm ftype : String)
    (ss : Nat) : Bool :=
  (probe (datalogPath dir_date file_date hhmm ss ftype)).1 &&
    decide (0 < (probe (datalogPath dir_date file_date hhmm ss ftype)).2)

/-- The scan loop of `find_seconds_for_type` (lines 272-276) over an
explicit list of seconds values, returning the probed values and the
result. -/
def scanLoop (probe : String → Bool × Nat) (dir_date file_date hhmm ftype : String) :
    List Nat → List Nat × Option (Nat × Nat)
  | [] => ([], none)
  | ss :: rest =>
    let r := probe (datalogPath dir_date file_date hhmm ss ftype)
    if r.1 && decide (0 < r.2) then ([ss], some (ss, r.2))
    else
      let p := scanLoop probe dir_date file_date hhmm ftype rest
      (ss :: p.1, p.2)

/-- `find_seconds_for_type` (lines 267-277): brute-force seconds 0-59 in
increasing order; `none` models the `(None, 0)` return. -/
def find_seconds_for_type (probe : String → Bool × Nat)
    (dir_date file_date hhmm ftype : String) : Option (Nat × Nat) :=
  (scanLoop probe dir_date file_date hhmm ftype (List.range 60)).2

/-- The candidate sequence of lines 286-287: for each offset 0..window,
`[ref]` at offset 0, else `[ref + offset, ref - offset]`. -/
def nearCandidates (ref window : Nat) : List Int :=
  (List.range (window + 1)).flatMap fun offset =>
    if offset = 0 then [(ref : Int)]
    else [(ref : Int) + (offset : Int), (ref : Int) - (offset : Int)]

/-- The loop of `find_seconds_near` (lines 286-295) over an explicit
candidate list: candidates outside `[0,60)` are skipped unprobed
(line 289); otherwise probe and stop at the first hit. -/
def nearLoop (probe : String → Bool × Nat) (dir_date file_date hhmm ftype : String) :
    List Int → List Nat × Option (Nat × Nat)
  | [] => ([], none)
  | c :: rest =>
    if c < 0 ∨ 60 ≤ c then nearLoop probe dir_date file_date hhmm ftype rest
    else
      let ss := c.toNat
      let r := probe (datalogPath dir_date file_date hhmm ss ftype)
      if r.1 && decide (0 < r.2) then ([ss], some (ss, r.2))
      else
        let p := nearLoop probe dir_date file_date hhmm ftype rest
        (ss :: p.1, p.2)

/-- `find_seconds_near` (lines 280-296); the script's default
`window=15` is passed explicitly by its caller below. -/
def find_seconds_near (probe : String → Bool × Nat)
    (dir_date file_date hhmm ftype : String) (reference_ss window : Nat) :
    Option (Nat × Nat) :=
  (nearLoop probe dir_date file_date hhmm ftype (nearCandidates reference_ss window)).2

/-! ### Per-session resolution inside `download_datalog` (lines 421-452) -/

def DATALOG_TYPES_EARLY : List String := ["EVE", "CSL"]

def DATALOG_TYPES_LATE : List String := ["BRP", "PLD", "SAD"]

def DATALOG_ALL_TYPES : List String := DATALOG_TYPES_EARLY ++ DATALOG_TYPES_LATE

/-- Outcome of resolving one session: every `(type, seconds)` probe issued
in order, the confirmed `(type, seconds, size)` files, and the number of
type tags counted as not found. -/
structure SessionResolution where
  probed : List (String × Nat)
  files : List (String × String × Nat)
  notFound : Nat
deriving DecidableEq, Repr

/-- Lines 421-452 of `download_datalog` for one session: scan BRP seconds
exhaustively; if that fails, count every type tag as not found and probe
nothing else (`continue`); otherwise search the remaining late types and
then the early types within ±15 of the BRP seconds. -/
def resolveSession (probe : String → Bool × Nat) (dir_date file_date hhmm : String) :
    SessionResolution :=
  let brp := scanLoop probe dir_date file_date hhmm "BRP" (List.range 60)
  match brp.2 with
  | none => ⟨brp.1.map fun ss => ("BRP", ss), [], DATALOG_ALL_TYPES.length⟩
  | some (brp_ss, brp_size) =>
    let step := fun (acc : List (String × Nat) × List (String × String × Nat))
        (ftype : String) =>
      let r := nearLoop probe dir_date file_date hhmm ftype (nearCandidates brp_ss 15)
      (acc.1 ++ r.1.map fun ss => (ftype, ss),
        acc.2 ++ (match r.2 with
          | some (ss, size) => [(ftype, twoDigit ss, size)]
          | none => []))
    let lateTypes := DATALOG_TYPES_LATE.filter fun t => t ≠ "BRP"
    let res := (lateTypes ++ DATALOG_TYPES_EARLY).foldl step
      (brp.1.map fun ss => ("BRP", ss), [("BRP", twoDigit brp_ss, brp_size)])
    ⟨res.1, res.2, 0⟩

/-- Lines 403-452 for one directory epoch: when the directory probe fails
(for any reason, a transient network error included) every session of the
epoch is skipped with no per-session probing (`continue`), modelled as
`none`; file date and HHMM strings come from `start_time` via
`strftime("%Y%m%d")` / `strftime("%H%M")`. -/
def processEpoch (net : String → Option HeadResponse) (base dir_date : String)
    (sessions : List SessionRecord) : Option (List SessionResolution) :=
  if is_real_directory net base ("DATALOG/" ++ dir_date) then
    some (sessions.map fun s =>
      resolveSession (fun p => is_real_file net base p) dir_date
        (format8 s.start_time.date)
        (twoDigit s.start_time.hour ++ twoDigit s.start_time.minute))
  else none

/-! ### The size-compare fetch step (lines 461-473, `download_file`) -/

/-- The per-file fetch decisions of lines 461-473 over a confirmed file
list.  `local` maps a path to the size of an existing local copy
(`os.path.exists` / `os.path.getsize`); `remote` gives the byte count the
card actually serves for a path, which a successful `download_file`
streams to disk.  Returns the number of downloads performed and the local
state afterwards. -/
def fetchFiles (remote : String → Nat) :
    (String → Option Nat) → List (String × Nat) → Nat × (String → Option Nat)
  | localSize, [] => (0, localSize)
  | localSize, (p, size) :: rest =>
    if localSize p = some size then fetchFiles remote localSize rest
    else
      let r := fetchFiles remote
        (fun q => if q = p then some (remote p) else localSize q) rest
      (r.1 + 1, r.2)

/-! ### Spec-side descriptions and concrete fixtures -/

/-- The probe order described by the spec for the localized search:
the reference value first, then alternating `+k`/`-k` offsets for
`k = 1` up to the radius. -/
def specNearOrder (ref window : Nat) : List Int :=
  (ref : Int) :: (List.range window).flatMap fun k =>
    [(ref : Int) + ((k : Int) + 1), (ref : Int) - ((k : Int) + 1)]

/-- A summary file with creation date 2024-01-10, the two marker
channels, and one valid on/off pair in each of two records:
`on=1320` in record 0 and `on=30` in record 1. -/
def exFile : StrFile :=
  ⟨"10.01.24", "20.30.00", ["MaskOn", "MaskOff"], [[[1320], [1380]], [[30], [90]]]⟩

/-- A prober that reports existence (size 4242) only for the PLD file at
seconds 45 of the session probed in the examples. -/
def probe45 : String → Bool × Nat := fun p =>
  if p = datalogPath "20240110" "20240111" "2200" 45 "PLD" then (true, 4242)
  else (false, 0)

/-- A prober that reports existence (size 4242) only for the BRP file at
seconds 37 of the session probed in the examples. -/
def probe37 : String → Bool × Nat := fun p =>
  if p = datalogPath "20240110" "20240111" "2200" 37 "BRP" then (true, 4242)
  else (false, 0)

/-- A prober that reports no existence anywhere. -/
def probeNone : String → Bool × Nat := fun _ => (false, 0)

/-! ### Helper lemmas -/

theorem is_real_file_of_html (net : String → Option HeadResponse) (base path : String)
    (r : HeadResponse) (hr : net (urlOf base path) = some r)
    (hct : strContains "text/html" r.contentType = true) :
    is_real_file net base path = (false, 0) := by
  unfold is_real_file
  rw [hr]
  simp [hct]

theorem is_real_file_of_netfail (net : String → Option HeadResponse) (base path : String)
    (hr : net (urlOf base path) = none) :
    is_real_file net base path = (false, 0) := by
  unfold is_real_file
  rw [hr]

theorem size_zero_of_not_exists (net : String → Option HeadResponse) (base path : String)
    (h : (is_real_file net base path).1 = false) :
    (is_real_file net base path).2 = 0 := by
  cases hr : net (urlOf base path) with
  | none => rw [is_real_file_of_netfail net base path hr]
  | some r =>
    by_cases hct : strContains "text/html" r.contentType = true
    · rw [is_real_file_of_html net base path r hr hct]
    · exfalso
      have hv : is_real_file net base path = (true, r.contentLength) := by
        unfold is_real_file
        rw [hr]
        simp [hct]
      rw [hv] at h
      simp at h

theorem is_real_directory_iff (net : String → Option HeadResponse) (base path : String) :
    is_real_directory net base path = true ↔
      is_real_file net base (rstripSlash path) = (true, 0) := by
  unfold is_real_directory
  rcases hr : is_real_file net base (rstripSlash path) with ⟨e, s⟩
  constructor
  · intro h
    simp only [Bool.and_eq_true, beq_iff_eq] at h
    rw [h.1, h.2]
  · intro h
    obtain ⟨he, hs⟩ := Prod.mk.inj h
    simp [he, hs]

/-! ### Claim theorems -/

/-- C6: `is_real_file` classifies a response whose content type is the
card's textual/document (`text/html`) not-found page as non-existent with
size 0 regardless of its reported byte length, treats a network-level
failure the same way, and returns size 0 whenever it returns
`exists = false`. -/
theorem probe_classification :
    (∀ (net : String → Option HeadResponse) (base path : String) (r : HeadResponse),
      net (urlOf base path) = some r →
      strContains "text/html" r.contentType = true →
      is_real_file net base path = (false, 0)) ∧
    (∀ (net : String → Option HeadResponse) (base path : String),
      net (urlOf base path) = none →
      is_real_file net base path = (false, 0)) ∧
    (∀ (net : String → Option HeadResponse) (base path : String),
      (is_real_file net base path).1 = false →
      (is_real_file net base path).2 = 0) :=
  ⟨is_real_file_of_html, is_real_file_of_netfail, size_zero_of_not_exists⟩

/-- Witness for C6: a HEAD response of type `text/html` with a reported
length of 512 bytes is still classified `(false, 0)`, and so is a probe
over a failing network. -/
theorem probe_classification_w :
    is_real_file (fun _ => some ⟨"text/html; charset=utf-8", 512⟩) "http://192.168.4.1"
      "DATALOG/20240110" = (false, 0) ∧
    is_real_file (fun _ => none) "http://192.168.4.1" "STR.edf" = (false, 0) ∧
    (is_real_file (fun _ => none) "http://192.168.4.1" "STR.edf").2 = 0 :=
  ⟨probe_classification.1 (fun _ => some ⟨"text/html; charset=utf-8", 512⟩)
      "http://192.168.4.1" "DATALOG/20240110" ⟨"text/html; charset=utf-8", 512⟩
      rfl (by decide),
    probe_classification.2.1 (fun _ => none) "http://192.168.4.1" "STR.edf" rfl,
    probe_classification.2.2 (fun _ => none) "http://192.168.4.1" "STR.edf" (by decide)⟩

/-- C9: the decoded year of the summary header's two-digit year `yy` is
`2000 + yy` for `yy < 85` and `1900 + yy` otherwise; the concrete header
fields `10.01.24` and `10.01.85` decode to years 2024 and 1985. -/
theorem year_pivot :
    (∀ yy : Nat, yy < 85 → decodeTwoDigitYear yy = 2000 + yy) ∧
    (∀ yy : Nat, 85 ≤ yy → decodeTwoDigitYear yy = 1900 + yy) ∧
    parseHeaderDate "10.01.24" "20.30.00" = .ok ⟨⟨2024, 1, 10⟩, 20, 30, 0⟩ ∧
    parseHeaderDate "10.01.85" "20.30.00" = .ok ⟨⟨1985, 1, 10⟩, 20, 30, 0⟩ := by
  refine ⟨fun yy h => ?_, fun yy h => ?_, by decide, by decide⟩
  · simp [decodeTwoDigitYear, h]
  · simp only [decodeTwoDigitYear]
    rw [if_neg (by omega)]

/-- Witness for C9 at `yy = 7` and `yy = 99`. -/
theorem year_pivot_w :
    decodeTwoDigitYear 7 = 2000 + 7 ∧ decodeTwoDigitYear 99 = 1900 + 99 :=
  ⟨year_pivot.1 7 (by decide), year_pivot.2.1 99 (by decide)⟩

/-- C10: a path is classified as an existing directory iff the probe on
the path with trailing slashes removed reports existence with size
exactly 0; when the directory probe for an epoch fails - a network
failure of that single probe included - every session of the epoch is
skipped with no per-session probing. -/
theorem directory_gate :
    (∀ (net : String → Option HeadResponse) (base path : String),
      is_real_directory net base path = true ↔
        is_real_file net base (rstripSlash path) = (true, 0)) ∧
    (∀ (net : String → Option HeadResponse) (base dd : String)
      (sessions : List SessionRecord),
      is_real_directory net base ("DATALOG/" ++ dd) = false →
      processEpoch net base dd sessions = none) ∧
    (∀ (net : String → Option HeadResponse) (base dd : String)
      (sessions : List SessionRecord),
      net (urlOf base (rstripSlash ("DATALOG/" ++ dd))) = none →
      processEpoch net base dd sessions = none) := by
  refine ⟨is_real_directory_iff, fun net base dd sessions h => ?_, fun net base dd sessions h => ?_⟩
  · unfold processEpoch
    rw [h]
    rfl
  · unfold processEpoch
    have hd : is_real_directory net base ("DATALOG/" ++ dd) = false := by
      unfold is_real_directory
      rw [is_real_file_of_netfail net base (rstripSlash ("DATALOG/" ++ dd)) h]
      rfl
    rw [hd]
    rfl

/-- Witness for C10: over a failing network the 2024-01-10 epoch directory
is not real and its sessions are skipped unprobed. -/
theorem directory_gate_w :
    (is_real_directory (fun _ => none) "http://192.168.4.1" "DATALOG/20240110/" = true ↔
      is_real_file (fun _ => none) "http://192.168.4.1"
        (rstripSlash "DATALOG/20240110/") = (true, 0)) ∧
    processEpoch (fun _ => none) "http://192.168.4.1" "20240110"
      [⟨"20240110", ⟨⟨2024, 1, 11⟩, 10, 0, 0⟩, 60⟩] = none :=
  ⟨directory_gate.1 (fun _ => none) "http://192.168.4.1" "DATALOG/20240110/",
    directory_gate.2.2 (fun _ => none) "http://192.168.4.1" "20240110"
      [⟨"20240110", ⟨⟨2024, 1, 11⟩, 10, 0, 0⟩, 60⟩] rfl⟩

theorem pairSessions_eq (d : Date) (l : List (Int × Int)) :
    pairSessions d l =
      (l.filter fun p => specValidPair p.1 p.2).map
        fun p => ⟨format8 d, noonPlus d p.1.toNat, p.2 - p.1⟩ := by
  induction l with
  | nil => rfl
  | cons p rest ih =>
    obtain ⟨onv, offv⟩ := p
    have step : pairSessions d ((onv, offv) :: rest) =
        if onv ≤ 0 ∨ offv ≤ 0 then pairSessions d rest
        else if 1440 ≤ onv ∨ 1440 ≤ offv then pairSessions d rest
        else if offv - onv ≤ 0 then pairSessions d rest
        else ⟨format8 d, noonPlus d onv.toNat, offv - onv⟩ :: pairSessions d rest := rfl
    rw [step, List.filter_cons]
    by_cases h1 : onv ≤ 0 ∨ offv ≤ 0
    · have hv : specValidPair onv offv = false := by
        simp only [specValidPair, Bool.and_eq_false_iff, decide_eq_false_iff_not, not_lt]
        omega
      rw [if_pos h1, ih, hv]
      rfl
    · rw [if_neg h1]
      by_cases h2 : 1440 ≤ onv ∨ 1440 ≤ offv
      · have hv : specValidPair onv offv = false := by
          simp only [specValidPair, Bool.and_eq_false_iff, decide_eq_false_iff_not, not_lt]
          omega
        rw [if_pos h2, ih, hv]
        rfl
      · rw [if_neg h2]
        by_cases h3 : offv - onv ≤ 0
        · have hv : specValidPair onv offv = false := by
            simp only [specValidPair, Bool.and_eq_false_iff, decide_eq_false_iff_not, not_lt]
            omega
          rw [if_pos h3, ih, hv]
          rfl
        · have hv : specValidPair onv offv = true := by
            simp only [specValidPair, Bool.and_eq_true, decide_eq_true_iff]
            omega
          rw [if_neg h3, ih, hv]
          rfl

theorem addDays_nextDay (d : Date) (n : Nat) :
    addDays (nextDay d) n = addDays d (n + 1) := by
  induction n with
  | zero => rfl
  | succ k ih => rw [addDays, ih]; rfl

theorem sessionsFrom_length (onI offI : Nat) (records : List (List (List Int))) :
    ∀ d : Date, (sessionsFrom onI offI d records).length =
      ((markerPairs onI offI records).filter fun p => specValidPair p.1 p.2).length := by
  induction records with
  | nil => intro d; rfl
  | cons chans rest ih =>
    intro d
    rw [sessionsFrom, markerPairs, List.length_append, pairSessions_eq,
      List.length_map, List.filter_append, List.length_append, ih (nextDay d)]

theorem sessionsFrom_durations (onI offI : Nat) (records : List (List (List Int))) :
    ∀ d : Date, (sessionsFrom onI offI d records).map (fun s => s.duration_min) =
      ((markerPairs onI offI records).filter fun p => specValidPair p.1 p.2).map
        fun p => p.2 - p.1 := by
  induction records with
  | nil => intro d; rfl
  | cons chans rest ih =>
    intro d
    rw [sessionsFrom, markerPairs, List.map_append, pairSessions_eq, List.filter_append,
      List.map_append, List.map_map, ih (nextDay d)]
    rfl

theorem parse_ok_inv (f : StrFile) (ss : List SessionRecord)
    (h : parse_str_edf f = .ok ss) :
    ∃ dt onI offI, parseHeaderDate f.dateStr f.timeStr = .ok dt ∧
      lastIndexOfLabel "MaskOn" f.labels = some onI ∧
      lastIndexOfLabel "MaskOff" f.labels = some offI ∧
      ss = sessionsFrom onI offI dt.date f.records := by
  unfold parse_str_edf at h
  cases hd : parseHeaderDate f.dateStr f.timeStr with
  | error e => rw [hd] at h; exact absurd h (by simp)
  | ok dt =>
    rw [hd] at h
    cases hOn : lastIndexOfLabel "MaskOn" f.labels with
    | none => rw [hOn] at h; exact absurd h (by simp)
    | some onI =>
      cases hOff : lastIndexOfLabel "MaskOff" f.labels with
      | none => rw [hOn, hOff] at h; exact absurd h (by simp)
      | some offI =>
        rw [hOn, hOff] at h
        exact ⟨dt, onI, offI, rfl, rfl, rfl, (Except.ok.inj h).symm⟩

theorem duration_pos_of_mem (onI offI : Nat) (records : List (List (List Int))) :
    ∀ (d : Date) (s : SessionRecord), s ∈ sessionsFrom onI offI d records →
      0 < s.duration_min := by
  induction records with
  | nil => intro d s hs; exact absurd hs (by simp [sessionsFrom])
  | cons chans rest ih =>
    intro d s hs
    rw [sessionsFrom, List.mem_append] at hs
    rcases hs with hs | hs
    · rw [pairSessions_eq] at hs
      obtain ⟨p, hp, hps⟩ := List.mem_map.mp hs
      have hv := (List.mem_filter.mp hp).2
      simp only [specValidPair, Bool.and_eq_true, decide_eq_true_iff] at hv
      rw [← hps]
      show 0 < p.2 - p.1
      omega
    · exact ih (nextDay d) s hs

/-- C1: when the marker channels are present, `parse_str_edf` succeeds and
returns one `SessionRecord` per on/off pair satisfying the validity
predicate (`on > 0`, `off > 0`, `on < 1440`, `off < 1440`,
`off - on > 0`), in order, with `duration_min = off - on` for its pair. -/
theorem extraction_valid_pairs (f : StrFile) (dt : DateTime) (onI offI : Nat)
    (hdt : parseHeaderDate f.dateStr f.timeStr = .ok dt)
    (hOn : lastIndexOfLabel "MaskOn" f.labels = some onI)
    (hOff : lastIndexOfLabel "MaskOff" f.labels = some offI) :
    parse_str_edf f = .ok (sessionsFrom onI offI dt.date f.records) ∧
    (sessionsFrom onI offI dt.date f.records).length =
      ((markerPairs onI offI f.records).filter fun p => specValidPair p.1 p.2).length ∧
    (sessionsFrom onI offI dt.date f.records).map (fun s => s.duration_min) =
      ((markerPairs onI offI f.records).filter fun p => specValidPair p.1 p.2).map
        fun p => p.2 - p.1 := by
  refine ⟨?_, sessionsFrom_length onI offI f.records dt.date,
    sessionsFrom_durations onI offI f.records dt.date⟩
  unfold parse_str_edf
  rw [hdt, hOn, hOff]

/-- Witness for C1 at `exFile`: both of its pairs are valid, so two
sessions come back, with durations 60 and 60. -/
theorem extraction_valid_pairs_w :
    parse_str_edf exFile = .ok (sessionsFrom 0 1 ⟨2024, 1, 10⟩ exFile.records) ∧
    (sessionsFrom 0 1 (⟨2024, 1, 10⟩ : Date) exFile.records).length =
      ((markerPairs 0 1 exFile.records).filter fun p => specValidPair p.1 p.2).length ∧
    (sessionsFrom 0 1 (⟨2024, 1, 10⟩ : Date) exFile.records).map (fun s => s.duration_min) =
      ((markerPairs 0 1 exFile.records).filter fun p => specValidPair p.1 p.2).map
        fun p => p.2 - p.1 :=
  extraction_valid_pairs exFile ⟨⟨2024, 1, 10⟩, 20, 30, 0⟩ 0 1 (by decide) (by decide)
    (by decide)

/-- C2: a pair with `on <= 0`, `off <= 0`, `on >= 1440`, `off >= 1440` or
`off <= on` contributes no `SessionRecord`, and every returned record has
`duration_min > 0`. -/
theorem invalid_pairs_dropped :
    (∀ (d : Date) (onv offv : Int) (rest : List (Int × Int)),
      (onv ≤ 0 ∨ offv ≤ 0 ∨ 1440 ≤ onv ∨ 1440 ≤ offv ∨ offv ≤ onv) →
      pairSessions d ((onv, offv) :: rest) = pairSessions d rest) ∧
    (∀ (f : StrFile) (ss : List SessionRecord), parse_str_edf f = .ok ss →
      ∀ s ∈ ss, 0 < s.duration_min) := by
  constructor
  · intro d onv offv rest h
    rw [pairSessions_eq, pairSessions_eq, List.filter_cons]
    have hv : specValidPair onv offv = false := by
      simp only [specValidPair, Bool.and_eq_false_iff, decide_eq_false_iff_not, not_lt]
      omega
    rw [hv]
    rfl
  · intro f ss h s hs
    obtain ⟨dt, onI, offI, _, _, _, hss⟩ := parse_ok_inv f ss h
    rw [hss] at hs
    exact duration_pos_of_mem onI offI f.records dt.date s hs

/-- Witness for C2: the out-of-range pair `(1500, 1510)` is dropped, and
the records extracted from `exFile` all have positive duration. -/
theorem invalid_pairs_dropped_w :
    pairSessions ⟨2024, 1, 10⟩ [((1500 : Int), (1510 : Int))] = pairSessions ⟨2024, 1, 10⟩ [] ∧
    (⟨"20240110", ⟨⟨2024, 1, 11⟩, 10, 0, 0⟩, 60⟩ : SessionRecord) ∈
      sessionsFrom 0 1 ⟨2024, 1, 10⟩ exFile.records ∧
    (0 : Int) < 60 :=
  ⟨invalid_pairs_dropped.1 ⟨2024, 1, 10⟩ 1500 1510 [] (by omega),
    by decide,
    invalid_pairs_dropped.2 exFile (sessionsFrom 0 1 ⟨2024, 1, 10⟩ exFile.records)
      (extraction_valid_pairs_w.1) ⟨"20240110", ⟨⟨2024, 1, 11⟩, 10, 0, 0⟩, 60⟩ (by decide)⟩

/-- C3 (amended): the `record_date` of every session from record index
`i` is the creation date plus `i` days formatted `YYYYMMDD`, independent
of the marker values, and `start_time` is 12:00:00 of that record day
plus `on` minutes.  Consequently - correcting the claim's example - with
creation date 2024-01-10, record index 0 and `on=1320` yields start_time
2024-01-11 10:00:00 (directory epoch 2024-01-10), and record index 1 with
`on=30` yields start_time 2024-01-11 12:30:00 with directory epoch
2024-01-11. -/
theorem session_date_rule :
    (∀ (onI offI : Nat) (d : Date) (records : List (List (List Int)))
      (s : SessionRecord), s ∈ sessionsFrom onI offI d records →
      ∃ i, i < records.length ∧ ∃ chans, records[i]? = some chans ∧
        ∃ onv offv : Int,
          (onv, offv) ∈ (chans.getD onI []).zip (chans.getD offI []) ∧
          specValidPair onv offv = true ∧
          s.record_date = format8 (addDays d i) ∧
          s.start_time = noonPlus (addDays d i) onv.toNat ∧
          s.duration_min = offv - onv) ∧
    parse_str_edf exFile = .ok
      [⟨"20240110", ⟨⟨2024, 1, 11⟩, 10, 0, 0⟩, 60⟩,
       ⟨"20240111", ⟨⟨2024, 1, 11⟩, 12, 30, 0⟩, 60⟩] := by
  constructor
  · intro onI offI d records
    induction records generalizing d with
    | nil => intro s hs; exact absurd hs (by simp [sessionsFrom])
    | cons chans rest ih =>
      intro s hs
      rw [sessionsFrom, List.mem_append] at hs
      rcases hs with hs | hs
      · rw [pairSessions_eq] at hs
        obtain ⟨p, hp, hps⟩ := List.mem_map.mp hs
        obtain ⟨hpz, hpv⟩ := List.mem_filter.mp hp
        subst hps
        refine ⟨0, by simp, chans, by simp, p.1, p.2, ?_, hpv, rfl, rfl, rfl⟩
        rw [Prod.mk.eta]
        exact hpz
      · obtain ⟨i, hi, chans2, hci, onv, offv, hmem, hval, h1, h2, h3⟩ :=
          ih (nextDay d) s hs
        refine ⟨i + 1, by simpa using hi, chans2, by simpa using hci,
          onv, offv, hmem, hval, ?_, ?_, h3⟩
        · rw [h1, addDays_nextDay]
        · rw [h2, addDays_nextDay]
  · decide

/-- Counterexample for C3 as stated: at `exFile` (creation date
2024-01-10, record 0 `on=1320`, record 1 `on=30`) the extractor's start
times are 2024-01-11 10:00:00 and 2024-01-11 12:30:00, not the claimed
2024-01-10 22:00:00 and 2024-01-12 00:30:00, and the second session's
directory epoch is 20240111, not 20240112. -/
theorem session_date_counter :
    parse_str_edf exFile = .ok
      [⟨"20240110", ⟨⟨2024, 1, 11⟩, 10, 0, 0⟩, 60⟩,
       ⟨"20240111", ⟨⟨2024, 1, 11⟩, 12, 30, 0⟩, 60⟩] ∧
    (⟨⟨2024, 1, 11⟩, 10, 0, 0⟩ : DateTime) ≠ ⟨⟨2024, 1, 10⟩, 22, 0, 0⟩ ∧
    (⟨⟨2024, 1, 11⟩, 12, 30, 0⟩ : DateTime) ≠ ⟨⟨2024, 1, 12⟩, 0, 30, 0⟩ ∧
    ("20240111" : String) ≠ "20240112" := by
  refine ⟨by decide, by decide, by decide, by decide⟩

/-- Witness for C3 (amended) at the first session of `exFile`. -/
theorem session_date_rule_w :
    (⟨"20240110", ⟨⟨2024, 1, 11⟩, 10, 0, 0⟩, 60⟩ : SessionRecord) ∈
      sessionsFrom 0 1 ⟨2024, 1, 10⟩ exFile.records ∧
    (∃ i, i < exFile.records.length ∧ ∃ chans, exFile.records[i]? = some chans ∧
      ∃ onv offv : Int,
        (onv, offv) ∈ (chans.getD 0 []).zip (chans.getD 1 []) ∧
        specValidPair onv offv = true ∧
        (⟨"20240110", ⟨⟨2024, 1, 11⟩, 10, 0, 0⟩, 60⟩ : SessionRecord).record_date =
          format8 (addDays ⟨2024, 1, 10⟩ i) ∧
        (⟨"20240110", ⟨⟨2024, 1, 11⟩, 10, 0, 0⟩, 60⟩ : SessionRecord).start_time =
          noonPlus (addDays ⟨2024, 1, 10⟩ i) onv.toNat ∧
        (⟨"20240110", ⟨⟨2024, 1, 11⟩, 10, 0, 0⟩, 60⟩ : SessionRecord).duration_min =
          offv - onv) :=
  ⟨by decide,
    session_date_rule.1 0 1 ⟨2024, 1, 10⟩ exFile.records
      ⟨"20240110", ⟨⟨2024, 1, 11⟩, 10, 0, 0⟩, 60⟩ (by decide)⟩

theorem lastIndexFrom_eq_none (x : String) (l : List String) :
    ∀ i : Nat, lastIndexFrom x i l = none ↔ x ∉ l := by
  induction l with
  | nil => intro i; simp [lastIndexFrom]
  | cons y rest ih =>
    intro i
    rw [lastIndexFrom]
    cases hr : lastIndexFrom x (i + 1) rest with
    | some j =>
      constructor
      · intro h
        exact absurd h (by simp)
      · intro h
        have hxrest : x ∈ rest := by
          by_contra hx
          have hn := (ih (i + 1)).mpr hx
          rw [hn] at hr
          exact Option.noConfusion hr
        exact absurd (List.mem_cons_of_mem y hxrest) h
    | none =>
      have hx : x ∉ rest := (ih (i + 1)).mp hr
      by_cases hy : y = x
      · rw [if_pos hy]
        constructor
        · intro h
          exact absurd h (by simp)
        · intro h
          have hm : x ∈ y :: rest := by
            rw [hy]
            exact List.mem_cons_self x rest
          exact absurd hm h
      · rw [if_neg hy]
        constructor
        · intro _ hmem
          rcases List.mem_cons.mp hmem with h | h
          · exact hy h.symm
          · exact hx h
        · intro _
          rfl

/-- C7: `parse_str_edf` raises when neither channel is present among the
labels, and does not raise that error when both `MaskOn` and `MaskOff`
are present. -/
theorem missing_channels_fatal :
    (∀ (f : StrFile) (dt : DateTime),
      parseHeaderDate f.dateStr f.timeStr = .ok dt →
      "MaskOn" ∉ f.labels → "MaskOff" ∉ f.labels →
      parse_str_edf f = .error "Could not find MaskOn/MaskOff signals in STR.edf") ∧
    (∀ (f : StrFile) (dt : DateTime),
      parseHeaderDate f.dateStr f.timeStr = .ok dt →
      "MaskOn" ∈ f.labels → "MaskOff" ∈ f.labels →
      ∃ ss, parse_str_edf f = .ok ss) := by
  constructor
  · intro f dt hdt hOn hOff
    have h1 : lastIndexOfLabel "MaskOn" f.labels = none :=
      (lastIndexFrom_eq_none "MaskOn" f.labels 0).mpr hOn
    unfold parse_str_edf
    rw [hdt, h1]
  · intro f dt hdt hOn hOff
    have h1 : lastIndexOfLabel "MaskOn" f.labels ≠ none := fun hc =>
      ((lastIndexFrom_eq_none "MaskOn" f.labels 0).mp hc) hOn
    have h2 : lastIndexOfLabel "MaskOff" f.labels ≠ none := fun hc =>
      ((lastIndexFrom_eq_none "MaskOff" f.labels 0).mp hc) hOff
    obtain ⟨onI, hOnI⟩ := Option.ne_none_iff_exists'.mp h1
    obtain ⟨offI, hOffI⟩ := Option.ne_none_iff_exists'.mp h2
    refine ⟨sessionsFrom onI offI dt.date f.records, ?_⟩
    unfold parse_str_edf
    rw [hdt, hOnI, hOffI]

/-- Witness for C7: a file whose only labels are pressure channels is
rejected, while `exFile` with both marker channels parses. -/
theorem missing_channels_fatal_w :
    parse_str_edf ⟨"10.01.24", "20.30.00", ["Press", "Leak"], [[[5], [6]]]⟩ =
      .error "Could not find MaskOn/MaskOff signals in STR.edf" ∧
    (∃ ss, parse_str_edf exFile = .ok ss) :=
  ⟨missing_channels_fatal.1 ⟨"10.01.24", "20.30.00", ["Press", "Leak"], [[[5], [6]]]⟩
      ⟨⟨2024, 1, 10⟩, 20, 30, 0⟩ (by decide) (by decide) (by decide),
    missing_channels_fatal.2 exFile ⟨⟨2024, 1, 10⟩, 20, 30, 0⟩ (by decide) (by decide)
      (by decide)⟩

theorem scanLoop_snd (probe : String → Bool × Nat) (dd fd hm ft : String)
    (l : List Nat) :
    (scanLoop probe dd fd hm ft l).2 =
      (l.find? (hitAt probe dd fd hm ft)).map
        fun ss => (ss, (probe (datalogPath dd fd hm ss ft)).2) := by
  induction l with
  | nil => rfl
  | cons ss rest ih =>
    rw [List.find?_cons]
    by_cases hh : hitAt probe dd fd hm ft ss = true
    · rw [hh]
      have hh2 := hh
      unfold hitAt at hh2
      have step : (scanLoop probe dd fd hm ft (ss :: rest)).2 =
          some (ss, (probe (datalogPath dd fd hm ss ft)).2) := by
        simp [scanLoop, hh2]
      rw [step]
      rfl
    · rw [Bool.not_eq_true] at hh
      rw [hh]
      have hh2 := hh
      unfold hitAt at hh2
      have step : (scanLoop probe dd fd hm ft (ss :: rest)).2 =
          (scanLoop probe dd fd hm ft rest).2 := by
        simp [scanLoop, hh2]
      rw [step, ih]

theorem scanLoop_fst_of_none (probe : String → Bool × Nat) (dd fd hm ft : String)
    (l : List Nat) (hn : (scanLoop probe dd fd hm ft l).2 = none) :
    (scanLoop probe dd fd hm ft l).1 = l := by
  induction l with
  | nil => rfl
  | cons ss rest ih =>
    by_cases hh : ((probe (datalogPath dd fd hm ss ft)).1 &&
        decide (0 < (probe (datalogPath dd fd hm ss ft)).2)) = true
    · exfalso
      have : (scanLoop probe dd fd hm ft (ss :: rest)).2 =
          some (ss, (probe (datalogPath dd fd hm ss ft)).2) := by
        simp [scanLoop, hh]
      rw [this] at hn
      exact Option.noConfusion hn
    · rw [Bool.not_eq_true] at hh
      have h1 : (scanLoop probe dd fd hm ft (ss :: rest)).1 =
          ss :: (scanLoop probe dd fd hm ft rest).1 := by
        simp [scanLoop, hh]
      have h2 : (scanLoop probe dd fd hm ft (ss :: rest)).2 =
          (scanLoop probe dd fd hm ft rest).2 := by
        simp [scanLoop, hh]
      rw [h2] at hn
      rw [h1, ih hn]

theorem nearLoop_snd (probe : String → Bool × Nat) (dd fd hm ft : String)
    (l : List Int) :
    (nearLoop probe dd fd hm ft l).2 =
      (((l.filter fun c => decide (0 ≤ c) && decide (c < 60)).map Int.toNat).find?
        (hitAt probe dd fd hm ft)).map
        fun ss => (ss, (probe (datalogPath dd fd hm ss ft)).2) := by
  induction l with
  | nil => rfl
  | cons c rest ih =>
    by_cases hc : c < 0 ∨ 60 ≤ c
    · have hcf : (decide (0 ≤ c) && decide (c < 60)) = false := by
        rcases hc with hc | hc
        · have hd : decide (0 ≤ c) = false := by
            rw [decide_eq_false_iff_not]
            omega
          rw [hd, Bool.false_and]
        · have hd : decide (c < 60) = false := by
            rw [decide_eq_false_iff_not]
            omega
          rw [hd, Bool.and_false]
      have hfl : List.filter (fun c => decide (0 ≤ c) && decide (c < 60)) (c :: rest) =
          List.filter (fun c => decide (0 ≤ c) && decide (c < 60)) rest := by
        rw [List.filter_cons, hcf]
        rfl
      have step : (nearLoop probe dd fd hm ft (c :: rest)).2 =
          (nearLoop probe dd fd hm ft rest).2 := by
        simp only [nearLoop]
        rw [if_pos hc]
      rw [step, ih, hfl]
    · have hct : (decide (0 ≤ c) && decide (c < 60)) = true := by
        rw [Bool.and_eq_true, decide_eq_true_iff, decide_eq_true_iff]
        omega
      have hfl : List.filter (fun c => decide (0 ≤ c) && decide (c < 60)) (c :: rest) =
          c :: List.filter (fun c => decide (0 ≤ c) && decide (c < 60)) rest := by
        rw [List.filter_cons, hct]
        rfl
      rw [hfl]
      have hmapc : List.map Int.toNat (c :: List.filter
          (fun c => decide (0 ≤ c) && decide (c < 60)) rest) =
          c.toNat :: List.map Int.toNat
            (List.filter (fun c => decide (0 ≤ c) && decide (c < 60)) rest) := rfl
      rw [hmapc, List.find?_cons]
      by_cases hh : hitAt probe dd fd hm ft c.toNat = true
      · rw [hh]
        have hh2 := hh
        unfold hitAt at hh2
        have step : (nearLoop probe dd fd hm ft (c :: rest)).2 =
            some (c.toNat, (probe (datalogPath dd fd hm c.toNat ft)).2) := by
          simp only [nearLoop]
          rw [if_neg hc]
          simp [hh2]
        rw [step]
        rfl
      · rw [Bool.not_eq_true] at hh
        rw [hh]
        have hh2 := hh
        unfold hitAt at hh2
        have step : (nearLoop probe dd fd hm ft (c :: rest)).2 =
            (nearLoop probe dd fd hm ft rest).2 := by
          simp only [nearLoop]
          rw [if_neg hc]
          simp [hh2]
        rw [step, ih]

theorem nearCandidates_eq (ref : Nat) :
    ∀ window : Nat, nearCandidates ref window = specNearOrder ref window := by
  intro window
  induction window with
  | zero =>
    simp [nearCandidates, specNearOrder, List.range_succ]
  | succ w ih =>
    have hcast : ((w + 1 : Nat) : Int) = (w : Int) + 1 := by
      push_cast
      ring
    have hlhs : nearCandidates ref (w + 1) =
        nearCandidates ref w ++
          [(ref : Int) + ((w : Int) + 1), (ref : Int) - ((w : Int) + 1)] := by
      rw [nearCandidates, List.range_succ, List.flatMap_append, ← nearCandidates]
      rw [List.flatMap_cons, List.flatMap_nil, List.append_nil,
        if_neg (Nat.succ_ne_zero w), hcast]
    have hrhs : specNearOrder ref (w + 1) =
        specNearOrder ref w ++
          [(ref : Int) + ((w : Int) + 1), (ref : Int) - ((w : Int) + 1)] := by
      rw [specNearOrder, List.range_succ, List.flatMap_append]
      rw [List.flatMap_cons, List.flatMap_nil, List.append_nil]
      rw [specNearOrder, List.cons_append]
    rw [hlhs, ih, hrhs]

/-- C4: `find_seconds_near` probes candidates in the order `r`, `r+1`,
`r-1`, ..., `r+w`, `r-w` (the spec's `specNearOrder`), skipping
candidates outside `[0,59]` unprobed, and returns the first candidate at
which the prober reports existence with nonzero size; with reference 37,
window 15 and a prober that reports existence only at seconds 45, the
probed values are 37,38,36,39,35,...,45 and the result is 45 ("45", size
4242). -/
theorem near_search_spec :
    (∀ ref window : Nat, nearCandidates ref window = specNearOrder ref window) ∧
    (∀ (probe : String → Bool × Nat) (dd fd hm ft : String) (ref window : Nat),
      find_seconds_near probe dd fd hm ft ref window =
        ((((specNearOrder ref window).filter
            fun c => decide (0 ≤ c) && decide (c < 60)).map Int.toNat).find?
          (hitAt probe dd fd hm ft)).map
          fun ss => (ss, (probe (datalogPath dd fd hm ss ft)).2)) ∧
    nearLoop probe45 "20240110" "20240111" "2200" "PLD" (nearCandidates 37 15) =
      ([37, 38, 36, 39, 35, 40, 34, 41, 33, 42, 32, 43, 31, 44, 30, 45],
        some (45, 4242)) ∧
    find_seconds_near probe45 "20240110" "20240111" "2200" "PLD" 37 15 =
      some (45, 4242) ∧
    twoDigit 45 = "45" := by
  refine ⟨nearCandidates_eq, ?_, by decide, by decide, by decide⟩
  intro probe dd fd hm ft ref window
  rw [find_seconds_near, nearLoop_snd, nearCandidates_eq]

/-- C5: `find_seconds_for_type` probes seconds 00-59 in increasing order
and returns the first value where the prober reports existence with
nonzero size together with that size; it returns `none` exactly when no
seconds value in `[0,60)` hits, and in that case the resolver of
`download_datalog` issues only the 60 anchor (BRP) probes, resolves no
file and counts all `DATALOG_ALL_TYPES.length = 5` type tags of the
session as not found. -/
theorem anchor_scan_spec :
    (∀ (probe : String → Bool × Nat) (dd fd hm ft : String),
      find_seconds_for_type probe dd fd hm ft =
        ((List.range 60).find? (hitAt probe dd fd hm ft)).map
          fun ss => (ss, (probe (datalogPath dd fd hm ss ft)).2)) ∧
    (∀ (probe : String → Bool × Nat) (dd fd hm ft : String),
      find_seconds_for_type probe dd fd hm ft = none ↔
        ∀ ss : Nat, ss < 60 → hitAt probe dd fd hm ft ss = false) ∧
    (∀ (probe : String → Bool × Nat) (dd fd hm : String),
      find_seconds_for_type probe dd fd hm "BRP" = none →
      resolveSession probe dd fd hm =
        ⟨(List.range 60).map fun ss => ("BRP", ss), [], DATALOG_ALL_TYPES.length⟩) ∧
    find_seconds_for_type probe37 "20240110" "20240111" "2200" "BRP" =
      some (37, 4242) ∧
    twoDigit 37 = "37" ∧
    resolveSession probeNone "20240110" "20240111" "2200" =
      ⟨(List.range 60).map fun ss => ("BRP", ss), [], 5⟩ := by
  have hsnd := fun (probe : String → Bool × Nat) (dd fd hm ft : String) =>
    scanLoop_snd probe dd fd hm ft (List.range 60)
  refine ⟨fun probe dd fd hm ft => hsnd probe dd fd hm ft, ?_, ?_, by decide, by decide,
    by decide⟩
  · intro probe dd fd hm ft
    rw [find_seconds_for_type, hsnd probe dd fd hm ft]
    rw [Option.map_eq_none', List.find?_eq_none]
    constructor
    · intro h ss hss
      have := h ss (List.mem_range.mpr hss)
      rw [Bool.not_eq_true] at this
      exact this
    · intro h ss hss
      rw [h ss (List.mem_range.mp hss)]
      simp
  · intro probe dd fd hm h
    have h2 : (scanLoop probe dd fd hm "BRP" (List.range 60)).2 = none := h
    have h1 : (scanLoop probe dd fd hm "BRP" (List.range 60)).1 = List.range 60 :=
      scanLoop_fst_of_none probe dd fd hm "BRP" (List.range 60) h2
    simp only [resolveSession, h2, h1]

/-- Witness for C5: a prober that never reports existence makes the
exhaustive BRP scan fail, and the resolver then reports the whole session
undiscoverable without probing any other type. -/
theorem anchor_scan_spec_w :
    find_seconds_for_type probeNone "20240112" "20240112" "2130" "BRP" = none ∧
    resolveSession probeNone "20240112" "20240112" "2130" =
      ⟨(List.range 60).map fun ss => ("BRP", ss), [], DATALOG_ALL_TYPES.length⟩ ∧
    hitAt probeNone "20240112" "20240112" "2130" "BRP" 12 = false :=
  have hn : find_seconds_for_type probeNone "20240112" "20240112" "2130" "BRP" = none :=
    by decide
  ⟨hn, anchor_scan_spec.2.2.1 probeNone "20240112" "20240112" "2130" hn,
    (anchor_scan_spec.2.1 probeNone "20240112" "20240112" "2130" "BRP").mp hn 12
      (by decide)⟩

theorem fetchFiles_state (remote : String → Nat) (files : List (String × Nat)) :
    ∀ (localSize : String → Option Nat) (p : String),
      (fetchFiles remote localSize files).2 p = localSize p ∨
      (fetchFiles remote localSize files).2 p = some (remote p) := by
  induction files with
  | nil => intro localSize p; exact Or.inl rfl
  | cons qs rest ih =>
    intro localSize p
    obtain ⟨q, s⟩ := qs
    by_cases hskip : localSize q = some s
    · have step : fetchFiles remote localSize ((q, s) :: rest) =
          fetchFiles remote localSize rest := by
        rw [fetchFiles, if_pos hskip]
      rw [step]
      exact ih localSize p
    · have step : (fetchFiles remote localSize ((q, s) :: rest)).2 =
          (fetchFiles remote
            (fun r => if r = q then some (remote q) else localSize r) rest).2 := by
        rw [fetchFiles, if_neg hskip]
      rw [step]
      rcases ih (fun r => if r = q then some (remote q) else localSize r) p with h | h
      · by_cases hpq : p = q
        · rw [h, if_pos hpq, hpq]
          exact Or.inr rfl
        · rw [h, if_neg hpq]
          exact Or.inl rfl
      · exact Or.inr h

theorem fetchFiles_complete (remote : String → Nat) (files : List (String × Nat)) :
    ∀ localSize : String → Option Nat,
      (∀ p s, (p, s) ∈ files → remote p = s) →
      ∀ p s, (p, s) ∈ files → (fetchFiles remote localSize files).2 p = some s := by
  induction files with
  | nil => intro localSize _ p s hmem; exact absurd hmem (by simp)
  | cons qt rest ih =>
    intro localSize hcons p s hmem
    obtain ⟨q, t⟩ := qt
    have hqt : remote q = t := hcons q t (List.mem_cons_self _ _)
    have hrest : ∀ p s, (p, s) ∈ rest → remote p = s := fun p s hm =>
      hcons p s (List.mem_cons_of_mem _ hm)
    by_cases hskip : localSize q = some t
    · have step : fetchFiles remote localSize ((q, t) :: rest) =
          fetchFiles remote localSize rest := by
        rw [fetchFiles, if_pos hskip]
      rw [step]
      rcases List.mem_cons.mp hmem with heq | hm
      · obtain ⟨hp, hst⟩ := Prod.mk.inj heq
        subst hp
        subst hst
        rcases fetchFiles_state remote rest localSize p with h | h
        · rw [h, hskip]
        · rw [h, hqt]
      · exact ih localSize hrest p s hm
    · have step : (fetchFiles remote localSize ((q, t) :: rest)).2 =
          (fetchFiles remote
            (fun r => if r = q then some (remote q) else localSize r) rest).2 := by
        rw [fetchFiles, if_neg hskip]
      rw [step]
      rcases List.mem_cons.mp hmem with heq | hm
      · obtain ⟨hp, hst⟩ := Prod.mk.inj heq
        subst hp
        subst hst
        rcases fetchFiles_state remote rest
            (fun r => if r = p then some (remote p) else localSize r) p with h | h
        · rw [h, if_pos rfl, hqt]
        · rw [h, hqt]
      · exact ih (fun r => if r = q then some (remote q) else localSize r) hrest p s hm

theorem fetchFiles_all_skip (remote : String → Nat) (files : List (String × Nat)) :
    ∀ localSize : String → Option Nat,
      (∀ p s, (p, s) ∈ files → localSize p = some s) →
      (fetchFiles remote localSize files).1 = 0 := by
  induction files with
  | nil => intro localSize _; rfl
  | cons qt rest ih =>
    intro localSize hall
    obtain ⟨q, t⟩ := qt
    have hskip : localSize q = some t := hall q t (List.mem_cons_self _ _)
    have step : fetchFiles remote localSize ((q, t) :: rest) =
        fetchFiles remote localSize rest := by
      rw [fetchFiles, if_pos hskip]
    rw [step]
    exact ih localSize fun p s hm => hall p s (List.mem_cons_of_mem _ hm)

/-- C8: the fetch step skips a confirmed file iff a local copy exists
with byte-identical size, and rerunning the fetch phase against the same
remote state and the local state left by the first run downloads
nothing. -/
theorem fetch_skip_idempotent :
    (∀ (remote : String → Nat) (localSize : String → Option Nat) (p : String) (s : Nat),
      (fetchFiles remote localSize [(p, s)]).1 = 0 ↔ localSize p = some s) ∧
    (∀ (remote : String → Nat) (localSize : String → Option Nat)
      (files : List (String × Nat)),
      (∀ p s, (p, s) ∈ files → remote p = s) →
      (fetchFiles remote (fetchFiles remote localSize files).2 files).1 = 0) := by
  constructor
  · intro remote localSize p s
    by_cases hskip : localSize p = some s
    · have step : fetchFiles remote localSize [(p, s)] =
          fetchFiles remote localSize [] := by
        conv_lhs => rw [fetchFiles]
        rw [if_pos hskip]
      rw [step]
      exact ⟨fun _ => hskip, fun _ => rfl⟩
    · have step : fetchFiles remote localSize [(p, s)] =
          ((fetchFiles remote
            (fun r => if r = p then some (remote p) else localSize r) []).1 + 1,
           (fetchFiles remote
            (fun r => if r = p then some (remote p) else localSize r) []).2) := by
        conv_lhs => rw [fetchFiles]
        rw [if_neg hskip]
      rw [step]
      constructor
      · intro h
        exact absurd h (Nat.succ_ne_zero _)
      · intro h
        exact absurd h hskip
  · intro remote localSize files hcons
    exact fetchFiles_all_skip remote files (fetchFiles remote localSize files).2
      fun p s hm => fetchFiles_complete remote files localSize hcons p s hm

/-- Witness for C8: downloading `DATALOG/20240110/x.edf` (1000 bytes)
into empty local storage and running the fetch phase again yields zero
downloads the second time. -/
theorem fetch_skip_idempotent_w :
    ((fetchFiles (fun _ => 1000) (fun _ => none)
        [("DATALOG/20240110/x.edf", 1000)]).1 = 0 ↔
      (fun _ => (none : Option Nat)) "DATALOG/20240110/x.edf" = some 1000) ∧
    (fetchFiles (fun _ => 1000)
      (fetchFiles (fun _ => 1000) (fun _ => none)
        [("DATALOG/20240110/x.edf", 1000)]).2
      [("DATALOG/20240110/x.edf", 1000)]).1 = 0 :=
  ⟨fetch_skip_idempotent.1 (fun _ => 1000) (fun _ => none) "DATALOG/20240110/x.edf" 1000,
    fetch_skip_idempotent.2 (fun _ => 1000) (fun _ => none)
      [("DATALOG/20240110/x.edf", 1000)]
      (by
        intro p s hm
        rw [List.mem_singleton] at hm
        rw [(Prod.mk.inj hm).2])⟩
